import Mathlib

/-!
Verification of the tachyon-tex LaTeX compilation service.

Shallow embedding of the repository's Rust sources:
* `src/services.rs`  — in-memory PDF result cache (`CompilationCache`),
  format cache (`FormatCache`);
* `src/healer.rs`    — `SelfHealer::attempt_heal`;
* `src/handlers.rs`  — the modular HTTP `compile_handler` and
  `parse_log_errors`;
* `src/main.rs`      — the routed binary: env-var cache toggle and its own
  `compile_handler` (empty-upload check, cache-HIT response headers).

Strings are modelled as `List Char`; file bytes as `List Nat`.  Machine
integers (`u64`, `usize`) are modelled as `Nat`: the quantities involved
(byte counts, millisecond timings, cache sizes) never approach `2^64` in
any statement below, and the source performs no wrapping arithmetic on
them, so no explicit modulus is needed except inside the stand-in hash.
-/

namespace TachyonTex

/-! ## Generic list/string utilities mirroring Rust `str` operations -/

/-- `pat` occurs at the front of `s` (Rust `str::starts_with`). -/
def isPrefixList (pat s : List Char) : Bool :=
  match pat, s with
  | [], _ => true
  | _ :: _, [] => false
  | p :: ps, c :: cs => p == c && isPrefixList ps cs

/-- Index of the first occurrence of `pat` in `s` (Rust `str::find`).
For the ASCII patterns used by this program, the char index coincides with
Rust's byte index up to reindexing, and insertion at that position yields
the same string. -/
def findSub (s pat : List Char) : Option Nat :=
  match s with
  | [] => if pat.isEmpty then some 0 else none
  | _ :: rest =>
    if isPrefixList pat s then some 0
    else (findSub rest pat).map (· + 1)

/-- Index of the last occurrence of `pat` in `s` (Rust `str::rfind`). -/
def rfindSub (s pat : List Char) : Option Nat :=
  match s with
  | [] => if pat.isEmpty then some 0 else none
  | _ :: rest =>
    match rfindSub rest pat with
    | some i => some (i + 1)
    | none => if isPrefixList pat s then some 0 else none

/-- Rust `str::contains` for a literal pattern. -/
def listContains (s pat : List Char) : Bool :=
  (findSub s pat).isSome

/-- Rust `String::insert_str s i ins`: insert `ins` at position `i`. -/
def insertAt (s : List Char) (i : Nat) (ins : List Char) : List Char :=
  s.take i ++ ins ++ s.drop i

/-- ASCII whitespace, the fragment of Rust `char::is_whitespace` this
program's inputs exercise. -/
def isWs (c : Char) : Bool :=
  c == ' ' || c == '\t' || c == '\n' || c == '\r'

/-- Rust `str::trim`. -/
def trimList (s : List Char) : List Char :=
  (((s.dropWhile isWs).reverse).dropWhile isWs).reverse

/-- `suffix` occurs at the end of `s` (Rust `str::ends_with`). -/
def endsWithList (s suffix : List Char) : Bool :=
  isPrefixList suffix.reverse s.reverse

/-- ASCII lowercasing of one char (the fragment of Rust
`str::to_lowercase` exercised by environment values). -/
def lowerAscii (c : Char) : Char :=
  if 'A' ≤ c && c ≤ 'Z' then Char.ofNat (c.toNat + 32) else c

/-- Split a char list at `'\n'` separators (every separator splits). -/
def splitNl (s : List Char) : List (List Char) :=
  match s with
  | [] => [[]]
  | c :: rest =>
    let ps := splitNl rest
    if c == '\n' then [] :: ps
    else
      match ps with
      | [] => [[c]]
      | h :: t => (c :: h) :: t

/-- Strip one trailing `'\r'` (Rust `str::lines` treats `\r\n` as a
terminator). -/
def stripCr (l : List Char) : List Char :=
  match l.getLast? with
  | some '\r' => l.dropLast
  | _ => l

/-- Rust `str::lines`: split on `'\n'`, strip a trailing `'\r'` from each
line, and do not yield a final empty line. -/
def rustLines (s : List Char) : List (List Char) :=
  let ps := splitNl s
  let ps := if ps.getLast? = some [] then ps.dropLast else ps
  ps.map stripCr

/-- Decimal digit string to `Nat` (Rust `str::parse::<usize>` on an
all-digit capture; overflow is not modelled as no claim exercises it). -/
def digitsToNat (l : List Char) : Nat :=
  l.foldl (fun a c => a * 10 + (c.toNat - 48)) 0

/-! ## `src/services.rs` — `CompilationCache` (in-memory result cache) -/

/-- `services.rs` `CacheEntry` (the `AtomicU64` is modelled as a plain
`Nat` field, updated where the source stores to it). -/
structure CacheEntry where
  pdf_data : List Nat
  created_at : Nat
  last_accessed : Nat
  compile_time_ms : Nat
  size_bytes : Nat
  deriving Repr, DecidableEq

/-- `services.rs` `CompilationCache`.  The `HashMap<u64, CacheEntry>` is
modelled as an association list with the map's distinct-key semantics
enforced by the insert operation. -/
structure CompilationCache where
  enabled : Bool
  max_cache_mb : Nat
  entries : List (Nat × CacheEntry)
  deriving Repr, DecidableEq

namespace CompilationCache

/-- `CompilationCache::new`: 512 MB default limit. -/
def new (enabled : Bool) : CompilationCache :=
  { enabled := enabled, max_cache_mb := 512, entries := [] }

/-- Modelled from the spec: `hash_input` delegates to the external
`xxhash_rust` crate (`xxh64(data, 0)`), which is outside `src/`.  The spec
only requires a fast non-cryptographic 64-bit hash, so a concrete stand-in
folded modulo `2^64` is used; no claim depends on particular hash values. -/
def hash_input (data : List Nat) : Nat :=
  data.foldl (fun a b => (a * 1099511628211 + b) % (2 ^ 64)) 14695981039346656037

/-- Total retained PDF size: `entries.values().map(|e| e.size_bytes).sum()`. -/
def totalSize (c : CompilationCache) : Nat :=
  (c.entries.map (fun p => p.2.size_bytes)).sum

/-- Remove every binding of key `k` (the map's `remove`). -/
def eraseKey (l : List (Nat × CacheEntry)) (k : Nat) : List (Nat × CacheEntry) :=
  l.filter (fun p => p.1 ≠ k)

/-- `HashMap::insert`: bind `k` to `v`, replacing any previous binding. -/
def mapInsert (k : Nat) (v : CacheEntry) (l : List (Nat × CacheEntry)) :
    List (Nat × CacheEntry) :=
  (k, v) :: eraseKey l k

/-- Key of an entry with minimal `last_accessed`
(`entries.iter().min_by_key(|(_, e)| e.last_accessed)`); `HashMap`
iteration order is arbitrary, so ties are broken by this list's order,
one legal refinement of the source. -/
def minKeyByLastAccessed : List (Nat × CacheEntry) → Option Nat
  | [] => none
  | (k, e) :: rest =>
    match minKeyByLastAccessed rest with
    | none => some k
    | some k' =>
      let e' := ((rest.filter (fun p => p.1 = k')).head?).map (fun p => p.2)
      match e' with
      | none => some k
      | some e' => if e.last_accessed ≤ e'.last_accessed then some k else some k'

/-- `CompilationCache::get_pdf` (`now` passed explicitly for the
`SystemTime::now()` read): on a hit, updates the entry's `last_accessed`
and returns the PDF bytes plus the recorded compile time. -/
def get_pdf (c : CompilationCache) (now h : Nat) :
    Option (List Nat × Nat) × CompilationCache :=
  if !c.enabled then (none, c)
  else
    match c.entries.find? (fun p => p.1 == h) with
    | some (_, e) =>
      (some (e.pdf_data, e.compile_time_ms),
       { c with entries :=
          c.entries.map (fun p =>
            if p.1 == h then (p.1, { p.2 with last_accessed := now }) else p) })
    | none => (none, c)

/-- `CompilationCache::put_pdf`: if the current total plus the new PDF's
length exceeds `max_cache_mb * 1024 * 1024`, remove one entry with minimal
`last_accessed` (if any); then insert the new entry unconditionally. -/
def put_pdf (c : CompilationCache) (now h : Nat) (data : List Nat)
    (compile_time_ms : Nat) : CompilationCache :=
  if !c.enabled then c
  else
    let current := totalSize c
    let ents :=
      if current + data.length > c.max_cache_mb * 1024 * 1024 then
        match minKeyByLastAccessed c.entries with
        | some k => eraseKey c.entries k
        | none => c.entries
      else c.entries
    let entry : CacheEntry :=
      { pdf_data := data, created_at := now, last_accessed := now,
        compile_time_ms := compile_time_ms, size_bytes := data.length }
    { c with entries := mapInsert h entry ents }

end CompilationCache

/-! ## `src/main.rs` — environment toggle for the result cache -/

/-- `main.rs` lines 989–991: `std::env::var("PDF_CACHE_ENABLED")` is `Err`
when the variable is absent, so `unwrap_or(false)` makes the cache
disabled by default; it is enabled only for `"true"` (lowercased) or
`"1"`. -/
def cacheEnabledEnv : Option String → Bool
  | some v =>
    v.toList.map lowerAscii == "true".toList || v.toList == "1".toList
  | none => false

/-! ## `src/healer.rs` — `SelfHealer::attempt_heal` -/

namespace SelfHealer

/-- `healer.rs` `PROTECTED_COMMANDS`, verbatim. -/
def protectedCommands : List String :=
  ["begin", "end", "documentclass", "usepackage", "input", "include",
   "newcommand", "renewcommand", "providecommand", "def", "let",
   "section", "subsection", "subsubsection", "paragraph", "chapter",
   "textbf", "textit", "emph", "underline", "texttt", "textrm", "textsf",
   "item", "label", "ref", "cite", "bibliography", "bibliographystyle",
   "caption", "title", "author", "date", "maketitle",
   "hspace", "vspace", "hfill", "vfill", "newline", "linebreak", "pagebreak",
   "footnote", "marginpar", "centering", "raggedleft", "raggedright",
   "frac", "sqrt", "sum", "prod", "int", "lim", "sin", "cos", "tan", "log",
   "exp",
   "alpha", "beta", "gamma", "delta", "epsilon", "theta", "lambda", "mu",
   "pi", "sigma", "omega",
   "left", "right", "big", "Big", "bigg", "Bigg",
   "text", "mathrm", "mathbf", "mathit", "mathsf", "mathtt", "mathcal",
   "mathbb",
   "quad", "qquad", "ldots", "cdots", "dots", "infty", "partial", "nabla",
   "over", "atop", "choose", "brace", "brack",
   "if", "else", "fi", "ifx", "ifnum", "ifdim", "ifcase", "or",
   "relax", "expandafter", "noexpand", "csname", "endcsname",
   "the", "number", "romannumeral", "string", "meaning",
   "par", "indent", "noindent", "smallskip", "medskip", "bigskip",
   "tiny", "scriptsize", "footnotesize", "small", "normalsize", "large",
   "Large", "LARGE", "huge", "Huge"]

/-- `PROTECTED_COMMANDS.contains(&cmd)` on a captured command name. -/
def isProtected (cmd : List Char) : Bool :=
  protectedCommands.any (fun s => s.toList == cmd)

/-- The marker `\begin{document}`. -/
def beginDocL : List Char := "\\begin\x7bdocument\x7d".toList

/-- The marker `\end{document}`. -/
def endDocL : List Char := "\\end\x7bdocument\x7d".toList

/-- Fix 1's appended text `"\n\\end{document}\n"`. -/
def endDocPatchL : List Char := "\n\\end\x7bdocument\x7d\n".toList

/-- Char class of the regex `\\([a-zA-Z@]+)`. -/
def isCmdChar (c : Char) : Bool :=
  ('a' ≤ c && c ≤ 'z') || ('A' ≤ c && c ≤ 'Z') || c == '@'

/-- Scan for captures of `\\([a-zA-Z@]+)` with explicit fuel (one unit
per consumed char, so `l.length` always suffices; the fuel only
discharges termination and never runs out on the initial call). -/
def lineCommandsF : Nat → List Char → List (List Char)
  | 0, _ => []
  | _ + 1, [] => []
  | fuel + 1, c :: rest =>
    if c == '\\' then
      let run := rest.takeWhile isCmdChar
      if run.isEmpty then lineCommandsF fuel rest
      else run :: lineCommandsF fuel (rest.drop run.length)
    else lineCommandsF fuel rest

/-- All captures of `\\([a-zA-Z@]+)` over a line, left to right,
non-overlapping, greedy — Rust `Regex::captures_iter` semantics: a
backslash followed by a non-empty maximal run of command chars yields the
run and scanning resumes after it; a backslash followed by none advances
by one. -/
def lineCommands (l : List Char) : List (List Char) :=
  lineCommandsF l.length l

/-- The literal `"[Error] "` head of the undefined-control-sequence log
pattern. -/
def errorPrefixL : List Char := "[Error] ".toList

/-- The literal tail `" Undefined control sequence"` of that pattern. -/
def undefinedTailL : List Char := " Undefined control sequence".toList

/-- Attempt the regex `\[Error\] [^:]+:(\d+): Undefined control sequence`
at the head of `l`, returning the parsed line number.  The split is
deterministic: `[^:]+` cannot contain the following `':'` and `\d+`
cannot contain the next `':'`, so greedy matching admits exactly one
decomposition at a given start. -/
def matchUndefinedAt (l : List Char) : Option Nat :=
  if isPrefixList errorPrefixL l then
    let r1 := l.drop errorPrefixL.length
    let fileRun := r1.takeWhile (fun c => c != ':')
    if fileRun.isEmpty then none
    else
      match r1.drop fileRun.length with
      | ':' :: r3 =>
        let digs := r3.takeWhile Char.isDigit
        if digs.isEmpty then none
        else
          match r3.drop digs.length with
          | ':' :: r4 =>
            if isPrefixList undefinedTailL r4 then some (digitsToNat digs)
            else none
          | _ => none
      | _ => none
  else none

/-- `re_undefined_tectonic.captures(logs)`: leftmost match; scan every
start position left to right. -/
def findUndefined : List Char → Option Nat
  | [] => none
  | c :: rest =>
    match matchUndefinedAt (c :: rest) with
    | some n => some n
    | none => findUndefined rest

/-- The source line the error log points at:
`content.lines().nth(line_num.saturating_sub(1))`. -/
def errorLine? (content logs : List Char) : Option (List Char) :=
  match findUndefined logs with
  | none => none
  | some n => (rustLines content).get? (n - 1)

/-- `cmds_to_patch`: every command captured on the error line that is not
protected, in order. -/
def cmdsToPatch (content logs : List Char) : List (List Char) :=
  match errorLine? content logs with
  | none => []
  | some line => (lineCommands line).filter (fun c => !(isProtected c))

/-- One stub `"\n\\providecommand{\\<cmd>}[1][]{[?<cmd>]}"`. -/
def stubFor (cmd : List Char) : List Char :=
  "\n\\providecommand\x7b\\".toList ++ cmd ++ "\x7d[1][]\x7b[?".toList
    ++ cmd ++ "]\x7d".toList

/-- Running text plus the names pushed onto `applied_fixes`. -/
structure HealResult where
  healed : List Char
  fixes : List String
  deriving Repr, DecidableEq

/-- Fix 1 (`healer.rs` lines 42–46): append `\n\end{document}\n` when the
running source contains `\begin{document}` but lacks `\end{document}`.
The logs are not consulted. -/
def healFix1 (r : HealResult) : HealResult :=
  if !(listContains r.healed endDocL) && listContains r.healed beginDocL then
    { healed := r.healed ++ endDocPatchL,
      fixes := r.fixes ++ ["missing_end_document"] }
  else r

/-- Fix 2 (`healer.rs` lines 55–99): stub out unprotected commands found
on the line the log's undefined-control-sequence error names.  The line is
looked up in the original `content`; the patch is spliced into the running
text before `\begin{document}`, else at the first `'\n'`, else prepended. -/
def healFix2 (content logs : List Char) (r : HealResult) : HealResult :=
  let cmds := cmdsToPatch content logs
  if cmds.isEmpty then r
  else
    let patches := cmds.foldl (fun acc c => acc ++ stubFor c) []
    let healed' :=
      match findSub r.healed beginDocL with
      | some pos => insertAt r.healed pos patches
      | none =>
        match findSub r.healed ['\n'] with
        | some pos => insertAt r.healed pos patches
        | none => patches ++ r.healed
    { healed := healed', fixes := r.fixes ++ ["undefined_command"] }

/-- Fix 3 (`healer.rs` lines 108–117): on runaway-argument logs, insert
`"\n}\n"` before the last `\end{document}` or append it. -/
def healFix3 (logs : List Char) (r : HealResult) : HealResult :=
  if listContains logs "Runaway argument".toList
      || listContains logs "File ended while scanning".toList then
    let healed' :=
      match rfindSub r.healed endDocL with
      | some pos => insertAt r.healed pos "\n\x7d\n".toList
      | none => r.healed ++ "\n\x7d\n".toList
    { healed := healed', fixes := r.fixes ++ ["unbalanced_brace"] }
  else r

/-- The body of `SelfHealer::attempt_heal`: the three fixes applied in
order to the running text. -/
def attemptHealCore (content logs : List Char) : HealResult :=
  healFix3 logs (healFix2 content logs (healFix1 ⟨content, []⟩))

/-- `SelfHealer::attempt_heal`: `Some(healed)` iff at least one fix was
applied. -/
def attemptHeal (content logs : List Char) : Option (List Char) :=
  let r := attemptHealCore content logs
  if r.fixes.isEmpty then none else some r.healed

/-- The phrase the spec means by "logs indicate an emergency stop": the
log text contains `"Emergency stop"` (cf. the healer's own comment and the
test fixture in `healer.rs`). -/
def logsIndicateEmergencyStop (logs : List Char) : Bool :=
  listContains logs "Emergency stop".toList

end SelfHealer

/-! ## `src/handlers.rs` — `parse_log_errors` -/

namespace LogParser

/-- A structured diagnostic record (`serde_json::Map` with keys `file`,
`line`, `message`, `context`). -/
structure Diag where
  file : List Char
  line : Option Nat
  message : List Char
  context : Option (List Char)
  deriving Repr, DecidableEq

/-- Direct pattern `^\[Error\] ([^:]+):(\d+): (.*)`: returns
(trimmed file, line number, trimmed message).  As in
`SelfHealer.matchUndefinedAt`, the greedy split is unique. -/
def directCapture (l : List Char) : Option (List Char × Nat × List Char) :=
  if isPrefixList "[Error] ".toList l then
    let r1 := l.drop 8
    let fileRun := r1.takeWhile (fun c => c != ':')
    if fileRun.isEmpty then none
    else
      match r1.drop fileRun.length with
      | ':' :: r2 =>
        let digs := r2.takeWhile Char.isDigit
        if digs.isEmpty then none
        else
          match r2.drop digs.length with
          | ':' :: ' ' :: rest =>
            some (trimList fileRun, digitsToNat digs, trimList rest)
          | _ => none
      | _ => none
  else none

/-- Fallback pattern `^(?:!|error:)(.*)`: the trimmed message. -/
def errorCapture (l : List Char) : Option (List Char) :=
  match l with
  | '!' :: rest => some (trimList rest)
  | _ =>
    if isPrefixList "error:".toList l then some (trimList (l.drop 6))
    else none

/-- Pattern `^l\.(\d+)(.*)`: line number plus trimmed context. -/
def lDotCapture (l : List Char) : Option (Nat × List Char) :=
  match l with
  | 'l' :: '.' :: rest =>
    let digs := rest.takeWhile Char.isDigit
    if digs.isEmpty then none
    else some (digitsToNat digs, trimList (rest.drop digs.length))
  | _ => none

/-- The fallback look-ahead (`handlers.rs` lines 375–384):
`for j in i+1..min(i+10, lines.len())` visits exactly the first **9**
lines after the error line — `(following.take 9)` — and stops at the
first one matching `^l\.(\d+)(.*)`. -/
def lookAhead (following : List (List Char)) : Option (Nat × List Char) :=
  (following.take 9).findSome? lDotCapture

/-- Does a three-char extension `tex`/`sty`/`cls` start here? -/
def extHere (l : List Char) : Bool :=
  isPrefixList "tex".toList l || isPrefixList "sty".toList l
    || isPrefixList "cls".toList l

/-- Largest `k` with `R[k] = '.'` followed by a known extension —
the greedy `[^)\n]+` of `\(([^)\n]+\.(?:tex|sty|cls))` prefers the
longest stem, i.e. the rightmost admissible dot. -/
def largestDotExt (R : List Char) : Option Nat :=
  (List.range R.length).reverse.find?
    (fun k => R.get? k == some '.' && extHere (R.drop (k + 1)))

/-- Try the file regex at the head of `l`: after `'('`, the candidate run
is everything up to `')'`/newline; the capture is the stem through the
extension. -/
def fileCaptureAt (l : List Char) : Option (List Char) :=
  match l with
  | '(' :: rest =>
    let R := rest.takeWhile (fun c => c != ')' && c != '\n')
    (largestDotExt R).map (fun k => R.take (k + 4))
  | _ => none

/-- `file_regex.captures(line)`: leftmost occurrence. -/
def fileCapture : List Char → Option (List Char)
  | [] => none
  | c :: rest =>
    match fileCaptureAt (c :: rest) with
    | some f => some f
    | none => fileCapture rest

/-- `possible_file.find(' ')` truncation (`handlers.rs` lines 391–393). -/
def truncAtSpace (f : List Char) : List Char :=
  f.takeWhile (fun c => c != ' ')

/-- Backward file search (`handlers.rs` lines 387–397): most recent
earlier line with a file match, else `"unknown"`. -/
def backFile (before : List (List Char)) : List Char :=
  match before.reverse.findSome? fileCapture with
  | some f => truncAtSpace f
  | none => "unknown".toList

/-- The discarded generic message. -/
def haltedL : List Char := "halted on potentially-recoverable error".toList

/-- The per-line loop of `parse_log_errors`, carrying the already-visited
lines (for the backward file search) and the remaining ones (for the
look-ahead). -/
def parseGo : List (List Char) → List (List Char) → List Diag
  | _, [] => []
  | before, line :: rest =>
    match directCapture line with
    | some (f, n, msg) =>
      ⟨f, some n, msg, none⟩ :: parseGo (before ++ [line]) rest
    | none =>
      match errorCapture line with
      | some msg =>
        if listContains msg haltedL then parseGo (before ++ [line]) rest
        else
          let lc := lookAhead rest
          ⟨backFile before, lc.map (fun p => p.1), msg,
            lc.map (fun p => p.2)⟩ :: parseGo (before ++ [line]) rest
      | none => parseGo (before ++ [line]) rest

/-- `parse_log_errors` over already-split lines. -/
def parseLogLines (lines : List (List Char)) : List Diag :=
  parseGo [] lines

/-- `parse_log_errors(log)`. -/
def parseLogErrors (log : List Char) : List Diag :=
  parseLogLines (rustLines log)

end LogParser

/-! ## `src/handlers.rs` — the modular HTTP `compile_handler` -/

namespace Handlers

/-- `file_name.ends_with(".tex")` on a part. -/
def isTexPart (p : String × List Nat) : Bool :=
  endsWithList p.1.toList ".tex".toList

/-- The multipart ingestion fold (`handlers.rs` lines 60–95): every part's
data is concatenated for hashing, and each `.tex` part *overwrites* the
main-file selection, so the **last** `.tex` part wins; with no `.tex`
part the initial `("main.tex", [])` stands. -/
def ingestMain (parts : List (String × List Nat)) : String × List Nat :=
  parts.foldl (fun acc p => if isTexPart p then p else acc) ("main.tex", [])

/-- Written from the spec's sentence for comparison with `ingestMain`
after the correction: the last `.tex` part, defaulting to `main.tex`. -/
def lastTexMain (parts : List (String × List Nat)) : String × List Nat :=
  (parts.reverse.find? isTexPart).getD ("main.tex", [])

/-- An HTTP response modelled as status plus header list. -/
structure HttpResponse where
  status : Nat
  headers : List (String × String)
  deriving Repr, DecidableEq

/-- Value of the first header with the given name. -/
def headerValue (name : String) (hs : List (String × String)) :
    Option String :=
  (hs.find? (fun p => p.1 == name)).map (fun p => p.2)

/-- Cache-HIT response headers (`handlers.rs` lines 102–109):
`X-Compile-Time-Ms` replays the stored original compile time; no `X-HMR`
header is set. -/
def hitHeaders (origTime filesReceived : Nat) : List (String × String) :=
  [("Content-Type", "application/pdf"),
   ("X-Compile-Time-Ms", toString origTime),
   ("X-Cache", "HIT"),
   ("X-Files-Received", toString filesReceived)]

/-- Cache-MISS success headers (`handlers.rs` lines 164–172). -/
def missHeaders (compileTimeMs : Nat) (hmr : String)
    (filesReceived : Nat) : List (String × String) :=
  [("Content-Type", "application/pdf"),
   ("X-Compile-Time-Ms", toString compileTimeMs),
   ("X-Cache", "MISS"),
   ("X-HMR", hmr),
   ("X-Files-Received", toString filesReceived)]

/-- `String::from_utf8` modelled on the ASCII fragment (every byte
`< 128` decodes to itself); no claim exercises multibyte sequences. -/
def decodeUtf8? (bs : List Nat) : Option (List Char) :=
  if bs.all (fun b => b < 128) then some (bs.map (fun b => Char.ofNat b))
  else none

/-- `FormatCache::extract_preamble`: the prefix before the first
`\begin{document}`. -/
def extractPreamble? (content : List Char) : Option (List Char) :=
  (findSub content SelfHealer.beginDocL).map (fun pos => content.take pos)

/-- `FormatCache::hash_preamble` via the stand-in hash. -/
def hashPreamble (p : List Char) : Nat :=
  CompilationCache.hash_input (p.map Char.toNat)

/-- `FormatCache::check_and_mark`: membership test plus insert-if-absent
on the seen-preamble set (modelled as a list of hashes). -/
def checkAndMark (seen : List Nat) (h : Nat) : Bool × List Nat :=
  if seen.contains h then (true, seen) else (false, h :: seen)

/-- The HMR computation (`handlers.rs` lines 112–123). -/
def computeHmr (seen : List Nat) (mainData : List Nat) :
    String × List Nat :=
  match decodeUtf8? mainData with
  | some content =>
    match extractPreamble? content with
    | some pre =>
      let h := hashPreamble pre
      let r := checkAndMark seen h
      (if r.1 then "HIT" else "MISS", r.2)
    | none => ("NONE", seen)
  | none => ("ERROR", seen)

/-- The engine invocation (Tectonic) is an external collaborator; its
outcome is passed in: `some pdf` on success, `none` on failure. -/
structure EngineResult where
  pdf : Option (List Nat)

/-- `handlers.rs` `compile_handler` as a state transformer over the
result cache and the seen-preamble set (filesystem workspace writes are
out of scope; `now` and the measured compile time are parameters). -/
def compileHandler (eng : EngineResult) (now compileTimeMs : Nat)
    (cc : CompilationCache) (seen : List Nat)
    (parts : List (String × List Nat)) :
    HttpResponse × CompilationCache × List Nat :=
  let filesReceived := parts.length
  let allInput := (parts.map (fun p => p.2)).flatten
  let mainData := (ingestMain parts).2
  let inputHash := CompilationCache.hash_input allInput
  match CompilationCache.get_pdf cc now inputHash with
  | (some (_pdf, origTime), cc') =>
    (⟨200, hitHeaders origTime filesReceived⟩, cc', seen)
  | (none, cc') =>
    let hs := computeHmr seen mainData
    match eng.pdf with
    | some pdf =>
      let cc'' := CompilationCache.put_pdf cc' now inputHash pdf compileTimeMs
      (⟨200, missHeaders compileTimeMs hs.1 filesReceived⟩, cc'', hs.2)
    | none => (⟨500, []⟩, cc', hs.2)

end Handlers

/-! ## `src/main.rs` — the routed `compile_handler` -/

namespace MainBin

/-- Cache-HIT response headers of the routed binary (`main.rs` lines
712–720): `X-Compile-Time-Ms` is the literal `"0"`; the original time
goes to `X-Original-Compile-Time-Ms`; no `X-HMR` header. -/
def hitHeaders (origTime filesReceived : Nat) : List (String × String) :=
  [("Content-Type", "application/pdf"),
   ("X-Compile-Time-Ms", "0"),
   ("X-Original-Compile-Time-Ms", toString origTime),
   ("X-Cache", "HIT"),
   ("X-Files-Received", toString filesReceived)]

/-- Outcome of the ingestion prefix of `main.rs`'s `compile_handler`
(lines 686–708): parts with empty data are skipped; an empty collection
is rejected with 400 before any cache or engine work; otherwise the
fingerprint covers filename bytes followed by data, in receive order. -/
inductive IngestResult where
  | badRequest (msg : String)
  | proceed (hash : Nat) (files : List (String × List Nat))
  deriving Repr, DecidableEq

/-- `main.rs` lines 686–708. -/
def ingest (parts : List (String × List Nat)) : IngestResult :=
  let files := parts.filter (fun p => !p.2.isEmpty)
  if files.isEmpty then
    .badRequest
      "No files provided. Send a ZIP or multiple files via multipart/form-data"
  else
    let allInput :=
      (files.map (fun p => p.1.toList.map Char.toNat ++ p.2)).flatten
    .proceed (CompilationCache.hash_input allInput) files

/-- The routed `POST /compile` handler (`main.rs` lines 681–964) down to
the cache decision, with the engine as an oracle.  The second component
records whether the engine was invoked.  The cache-miss branch
(workspace materialization, ZIP extraction, main-file heuristics, engine
run) is abstracted to its observable invocation, which is all the claims
about this handler consume. -/
def compileHandler (engineOk : Bool)
    (cacheLookup : Nat → Option (List Nat × Nat))
    (parts : List (String × List Nat)) :
    Handlers.HttpResponse × Bool :=
  match ingest parts with
  | .badRequest _ => (⟨400, []⟩, false)
  | .proceed h files =>
    match cacheLookup h with
    | some (_, origTime) => (⟨200, hitHeaders origTime files.length⟩, false)
    | none => (⟨if engineOk then 200 else 500, []⟩, true)

end MainBin

/-! ## Claim C1 — result-cache size limit on Insert -/

/-- Retained size of an entry list. -/
def sumSize (l : List (Nat × CacheEntry)) : Nat :=
  (l.map (fun q => q.2.size_bytes)).sum

theorem totalSize_eq_sumSize (c : CompilationCache) :
    CompilationCache.totalSize c = sumSize c.entries := rfl

/-- Dropping entries cannot increase the retained size. -/
theorem sumSize_filter_le (l : List (Nat × CacheEntry))
    (p : Nat × CacheEntry → Bool) :
    sumSize (l.filter p) ≤ sumSize l := by
  induction l with
  | nil => simp [sumSize]
  | cons a rest ih =>
    by_cases hp : p a = true <;>
      simp [sumSize, List.filter_cons, hp] at ih ⊢ <;> omega

/-- A PDF list of 536 870 000 bytes, just over half the 512 MiB
(`536870912`-byte) limit; kept behind a name so proofs only ever rewrite
its length. -/
def big : List Nat := List.replicate 536870000 0

theorem big_length : big.length = 536870000 :=
  List.length_replicate 536870000 0

/-- A small 10-byte entry inserted first (so it is the LRU victim). -/
def e1 : CacheEntry := ⟨List.replicate 10 0, 0, 0, 5, 10⟩

/-- First insert: 10 bytes into the fresh enabled cache. -/
def c1a : CompilationCache :=
  CompilationCache.put_pdf (CompilationCache.new true) 0 1
    (List.replicate 10 0) 5

/-- Second insert: `big`; `10 + 536870000 ≤ 536870912`, no eviction. -/
def c1b : CompilationCache := CompilationCache.put_pdf c1a 1 2 big 5

/-- Third insert: `big` again; now over the limit, one LRU eviction. -/
def c1c : CompilationCache := CompilationCache.put_pdf c1b 2 3 big 5

theorem c1a_eq : c1a = ⟨true, 512, [(1, e1)]⟩ := by
  rw [c1a, CompilationCache.put_pdf]
  norm_num [CompilationCache.new, CompilationCache.totalSize, e1,
    CompilationCache.mapInsert, CompilationCache.eraseKey]

theorem c1b_step (d : List Nat) (hd : d.length = 536870000) :
    CompilationCache.put_pdf ⟨true, 512, [(1, e1)]⟩ 1 2 d 5
      = ⟨true, 512, [(2, ⟨d, 1, 1, 5, 536870000⟩), (1, e1)]⟩ := by
  rw [CompilationCache.put_pdf]
  norm_num [CompilationCache.totalSize, e1, hd, CompilationCache.mapInsert,
    CompilationCache.eraseKey, List.filter_cons]

theorem c1c_step (d d2 : List Nat) (hd2 : d2.length = 536870000) :
    CompilationCache.put_pdf
        ⟨true, 512, [(2, ⟨d, 1, 1, 5, 536870000⟩), (1, e1)]⟩ 2 3 d2 5
      = ⟨true, 512, [(3, ⟨d2, 2, 2, 5, 536870000⟩),
          (2, ⟨d, 1, 1, 5, 536870000⟩)]⟩ := by
  rw [CompilationCache.put_pdf]
  norm_num [CompilationCache.totalSize, e1, hd2, CompilationCache.mapInsert,
    CompilationCache.eraseKey, List.filter_cons,
    CompilationCache.minKeyByLastAccessed]

theorem c1c_eq :
    c1c = ⟨true, 512, [(3, ⟨big, 2, 2, 5, 536870000⟩),
      (2, ⟨big, 1, 1, 5, 536870000⟩)]⟩ := by
  rw [c1c, c1b, c1a_eq, c1b_step big big_length, c1c_step big big big_length]

/-- C1 counterexample: after three Inserts into the default cache (limit
`512 * 1024 * 1024 = 536870912` bytes hard-coded by `new`), the total
retained PDF size is `1 073 740 000` bytes: the single LRU eviction
performed by `put_pdf` did not make room, and the entry was inserted
regardless, refuting both the never-exceeds invariant and the
evict-until-room-or-empty description. -/
theorem C1_counterexample :
    CompilationCache.totalSize c1c = 1073740000
      ∧ c1c.max_cache_mb * 1024 * 1024 = 536870912
      ∧ 536870912 < 1073740000 := by
  refine ⟨?_, ?_, by norm_num⟩
  · rw [c1c_eq]; norm_num [CompilationCache.totalSize]
  · rw [c1c_eq]; norm_num

/-- C1 (amended): before inserting, when `currentTotalSize + len(bytes)`
would exceed the limit, `put_pdf` evicts **at most one** entry (one with
minimal `last_accessed`) and then inserts unconditionally, so the total
retained size can exceed the configured 512 MiB limit.  What does hold:
one Insert grows the total by at most `len(bytes)`, and when
`currentTotalSize + len(bytes)` is within the limit no eviction occurs —
the entry is simply added. -/
theorem C1_put_pdf_bound (c : CompilationCache) (now h t : Nat)
    (data : List Nat) :
    CompilationCache.totalSize (CompilationCache.put_pdf c now h data t)
        ≤ CompilationCache.totalSize c + data.length
      ∧ (c.enabled = true →
          CompilationCache.totalSize c + data.length
              ≤ c.max_cache_mb * 1024 * 1024 →
          (CompilationCache.put_pdf c now h data t).entries
            = CompilationCache.mapInsert h
                ⟨data, now, now, t, data.length⟩ c.entries) := by
  constructor
  · cases hen : c.enabled with
    | false => simp [CompilationCache.put_pdf, hen]
    | true =>
      rw [CompilationCache.put_pdf]
      simp only [hen, Bool.not_true, Bool.false_eq_true, if_false]
      rw [totalSize_eq_sumSize]
      have key : ∀ ents : List (Nat × CacheEntry),
          sumSize ents ≤ sumSize c.entries →
          sumSize (CompilationCache.mapInsert h
              ⟨data, now, now, t, data.length⟩ ents)
            ≤ CompilationCache.totalSize c + data.length := by
        intro ents hle
        have h1 := sumSize_filter_le ents (fun p => decide (p.1 ≠ h))
        simp only [CompilationCache.mapInsert, CompilationCache.eraseKey,
          sumSize, List.map_cons, List.sum_cons, totalSize_eq_sumSize]
          at h1 hle ⊢
        omega
      apply key
      split
      · split
        · exact sumSize_filter_le _ _
        · exact le_refl _
      · exact le_refl _
  · intro hen hroom
    rw [CompilationCache.put_pdf]
    simp only [hen, Bool.not_true, Bool.false_eq_true, if_false]
    rw [if_neg (by omega)]

/-- Witness for C1's amended theorem at a concrete input: inserting 3
bytes into the fresh enabled cache stays within the bound and performs no
eviction. -/
theorem C1_put_pdf_bound_witness :
    CompilationCache.totalSize
        (CompilationCache.put_pdf (CompilationCache.new true) 0 1 [7, 7, 7] 5)
        ≤ CompilationCache.totalSize (CompilationCache.new true) + 3
      ∧ (CompilationCache.put_pdf (CompilationCache.new true) 0 1
            [7, 7, 7] 5).entries
        = CompilationCache.mapInsert 1
            ⟨[7, 7, 7], 0, 0, 5, 3⟩ (CompilationCache.new true).entries :=
  ⟨(C1_put_pdf_bound (CompilationCache.new true) 0 1 5 [7, 7, 7]).1,
   (C1_put_pdf_bound (CompilationCache.new true) 0 1 5 [7, 7, 7]).2
     rfl (by norm_num [CompilationCache.totalSize, CompilationCache.new])⟩

/-! ## Claim C2 — `PDF_CACHE_ENABLED` default -/

/-- C2 counterexample: with `PDF_CACHE_ENABLED` absent, the cache built by
`main` is **disabled**, refuting the claim that `"true"` is the default. -/
theorem C2_counterexample :
    (CompilationCache.new (cacheEnabledEnv none)).enabled = false := rfl

/-- C2 (amended): when `PDF_CACHE_ENABLED` is absent the result cache is
disabled — Lookup always misses and Insert is a no-op — and the cache is
enabled exactly for values lowercasing to `"true"` or equal to `"1"`. -/
theorem C2_cache_disabled_by_default (now h t : Nat) (data : List Nat) :
    CompilationCache.get_pdf (CompilationCache.new (cacheEnabledEnv none)) now h
        = (none, CompilationCache.new (cacheEnabledEnv none))
      ∧ CompilationCache.put_pdf (CompilationCache.new (cacheEnabledEnv none))
          now h data t
        = CompilationCache.new (cacheEnabledEnv none)
      ∧ cacheEnabledEnv (some "true") = true
      ∧ cacheEnabledEnv (some "TRUE") = true
      ∧ cacheEnabledEnv (some "1") = true
      ∧ cacheEnabledEnv (some "false") = false := by
  refine ⟨?_, ?_, by decide, by decide, by decide, by decide⟩
  · simp [CompilationCache.get_pdf, CompilationCache.new, cacheEnabledEnv]
  · simp [CompilationCache.put_pdf, CompilationCache.new, cacheEnabledEnv]

/-! ## Claim C3 — cache-HIT `X-Compile-Time-Ms` -/

/-- C3 counterexample: on the routed binary's `/compile` handler, a cache
HIT whose stored compile time is `42` answers `X-Compile-Time-Ms: 0`, not
`42` — the original time is not replayed in that header. -/
theorem C3_counterexample :
    Handlers.headerValue "X-Compile-Time-Ms" (MainBin.hitHeaders 42 1)
        = some "0"
      ∧ some "0" ≠ some (toString 42) := by
  constructor
  · rfl
  · decide

/-- C3 (amended): on a result-cache HIT the routed `main.rs` handler sets
`X-Compile-Time-Ms` to the literal `"0"` and replays the original compile
time in `X-Original-Compile-Time-Ms`; the modular `handlers.rs` variant
replays the original time in `X-Compile-Time-Ms` itself.  Both mark
`X-Cache: HIT`. -/
theorem C3_hit_headers (t n : Nat) :
    Handlers.headerValue "X-Compile-Time-Ms" (MainBin.hitHeaders t n)
        = some "0"
      ∧ Handlers.headerValue "X-Original-Compile-Time-Ms"
          (MainBin.hitHeaders t n) = some (toString t)
      ∧ Handlers.headerValue "X-Cache" (MainBin.hitHeaders t n) = some "HIT"
      ∧ Handlers.headerValue "X-Compile-Time-Ms" (Handlers.hitHeaders t n)
        = some (toString t)
      ∧ Handlers.headerValue "X-Cache" (Handlers.hitHeaders t n)
        = some "HIT" := by
  refine ⟨rfl, ?_, rfl, ?_, rfl⟩ <;>
    simp [Handlers.headerValue, MainBin.hitHeaders, Handlers.hitHeaders,
      List.find?]

/-! ## Claim C5 — main-file selection on the multipart path -/

/-- C5 counterexample: with two `.tex` parts, the **second** one becomes
the main file; the first `.tex` part does not. -/
theorem C5_counterexample :
    (Handlers.ingestMain [("a.tex", [1]), ("b.tex", [2])]).1 = "b.tex"
      ∧ ("b.tex" : String) ≠ "a.tex" := by
  constructor
  · rfl
  · decide

/-- The ingestion fold keeps the last matching part. -/
theorem foldl_keep_last_tex (parts : List (String × List Nat))
    (acc : String × List Nat) :
    parts.foldl (fun acc p => if Handlers.isTexPart p then p else acc) acc
      = (parts.reverse.find? Handlers.isTexPart).getD acc := by
  induction parts generalizing acc with
  | nil => rfl
  | cons p rest ih =>
    simp only [List.foldl_cons, List.reverse_cons, List.find?_append, ih]
    cases hr : rest.reverse.find? Handlers.isTexPart with
    | some q => simp
    | none =>
      by_cases hp : Handlers.isTexPart p = true <;>
        simp [List.find?, hp]

/-- C5 (amended): the **last** `.tex` part encountered in the upload
becomes the main file; when no `.tex` part is present the main file
defaults to `main.tex` (with empty data). -/
theorem C5_last_tex_wins (parts : List (String × List Nat)) :
    Handlers.ingestMain parts = Handlers.lastTexMain parts := by
  simp only [Handlers.ingestMain, Handlers.lastTexMain]
  exact foldl_keep_last_tex parts ("main.tex", [])

/-! ## Shared healer lemmas (claims C4, C7, C8) -/

/-- The fixes recorded after Fix 1 on the initial state. -/
theorem healFix1_start_fixes (content : List Char) :
    (SelfHealer.healFix1 ⟨content, []⟩).fixes
      = if (!(listContains content SelfHealer.endDocL)
            && listContains content SelfHealer.beginDocL) = true
        then ["missing_end_document"] else [] := by
  rw [SelfHealer.healFix1]
  split <;> rfl

/-- Fix 2 either leaves the fix list alone or appends its own tag. -/
theorem healFix2_fixes (content logs : List Char) (r : SelfHealer.HealResult) :
    (SelfHealer.healFix2 content logs r).fixes = r.fixes
      ∨ (SelfHealer.healFix2 content logs r).fixes
        = r.fixes ++ ["undefined_command"] := by
  rw [SelfHealer.healFix2]
  split
  · left; rfl
  · right; rfl

/-- Fix 3 either leaves the fix list alone or appends its own tag. -/
theorem healFix3_fixes (logs : List Char) (r : SelfHealer.HealResult) :
    (SelfHealer.healFix3 logs r).fixes = r.fixes
      ∨ (SelfHealer.healFix3 logs r).fixes
        = r.fixes ++ ["unbalanced_brace"] := by
  rw [SelfHealer.healFix3]
  split
  · right; rfl
  · left; rfl

/-! ## Claim C4 — when the missing-terminator patch fires -/

/-- C4 counterexample: with empty logs — which certainly do not indicate
an emergency stop — the healer still applies the missing-terminator patch
to a source containing `\begin{document}` and lacking `\end{document}`. -/
theorem C4_counterexample :
    SelfHealer.logsIndicateEmergencyStop [] = false
      ∧ SelfHealer.attemptHeal "\\begin\x7bdocument\x7dx".toList []
        = some ("\\begin\x7bdocument\x7dx".toList
            ++ SelfHealer.endDocPatchL) := by
  constructor
  · rfl
  · decide

/-- C4 (amended): the missing-terminator patch (tag
`missing_end_document`) is applied **exactly** when the source contains
`\begin{document}` and lacks `\end{document}` — the logs are never
consulted for this fix, so it can fire without any emergency stop. -/
theorem C4_missing_terminator_iff (content logs : List Char) :
    "missing_end_document" ∈ (SelfHealer.attemptHealCore content logs).fixes
      ↔ (listContains content SelfHealer.beginDocL = true
          ∧ listContains content SelfHealer.endDocL = false) := by
  rw [SelfHealer.attemptHealCore]
  have hne1 : ("missing_end_document" : String) ≠ "unbalanced_brace" := by
    decide
  have hne2 : ("missing_end_document" : String) ≠ "undefined_command" := by
    decide
  rcases healFix3_fixes logs
      (SelfHealer.healFix2 content logs (SelfHealer.healFix1 ⟨content, []⟩))
    with h3 | h3 <;> rw [h3] <;>
  rcases healFix2_fixes content logs (SelfHealer.healFix1 ⟨content, []⟩)
    with h2 | h2 <;> rw [h2] <;>
  rw [healFix1_start_fixes content] <;>
  · constructor
    · intro hmem
      split at hmem <;>
        simp_all [Bool.and_eq_true, Bool.not_eq_true']
    · intro hcond
      rw [if_pos (by simp [Bool.and_eq_true, Bool.not_eq_true', hcond.1,
        hcond.2])]
      simp

/-! ## Claim C7 — protected commands are never stubbed -/

/-- C7: the healer's stub list (`cmds_to_patch`) never contains a
protected command, and when every command on the log-named line is
protected, the undefined-command rule emits no patch at all. -/
theorem C7_no_protected_stub (content logs : List Char) :
    (∀ cmd ∈ SelfHealer.cmdsToPatch content logs,
        SelfHealer.isProtected cmd = false)
      ∧ (∀ line, SelfHealer.errorLine? content logs = some line →
          (∀ cmd ∈ SelfHealer.lineCommands line,
              SelfHealer.isProtected cmd = true) →
          "undefined_command"
            ∉ (SelfHealer.attemptHealCore content logs).fixes) := by
  constructor
  · intro cmd hmem
    rw [SelfHealer.cmdsToPatch] at hmem
    cases hline : SelfHealer.errorLine? content logs with
    | none => rw [hline] at hmem; cases hmem
    | some line =>
      rw [hline] at hmem
      have := List.of_mem_filter hmem
      simpa [Bool.not_eq_true'] using this
  · intro line hline hall
    have hempty : SelfHealer.cmdsToPatch content logs = [] := by
      rw [SelfHealer.cmdsToPatch, hline]
      rw [List.filter_eq_nil_iff]
      intro cmd hmem
      simp [hall cmd hmem]
    have hfix2 :
        SelfHealer.healFix2 content logs (SelfHealer.healFix1 ⟨content, []⟩)
          = SelfHealer.healFix1 ⟨content, []⟩ := by
      rw [SelfHealer.healFix2, hempty]
      rfl
    rw [SelfHealer.attemptHealCore, hfix2]
    have hne1 : ("undefined_command" : String) ≠ "missing_end_document" := by
      decide
    have hne2 : ("undefined_command" : String) ≠ "unbalanced_brace" := by
      decide
    rcases healFix3_fixes logs (SelfHealer.healFix1 ⟨content, []⟩)
      with h3 | h3 <;> rw [h3] <;>
    rw [healFix1_start_fixes content] <;> split <;>
      simp_all

/-- Content whose third line uses only the protected `\textbf`. -/
def c7content : List Char :=
  "\\documentclass\x7barticle\x7d\nA\n\\textbf\x7bB\x7d\n".toList

/-- Content whose third line uses the unprotected `\mycmd`. -/
def c7content2 : List Char :=
  "\\documentclass\x7barticle\x7d\nA\n\\mycmd\n".toList

/-- A log naming line 3 as an undefined control sequence. -/
def c7logs : List Char :=
  "[Error] t.tex:3: Undefined control sequence".toList

/-- Witness for C7 at concrete inputs: `mycmd` is stubbed and is not
protected; a line holding only `\textbf` yields no stub. -/
theorem C7_witness :
    SelfHealer.isProtected "mycmd".toList = false
      ∧ "undefined_command"
          ∉ (SelfHealer.attemptHealCore c7content c7logs).fixes :=
  ⟨(C7_no_protected_stub c7content2 c7logs).1 "mycmd".toList (by decide),
   (C7_no_protected_stub c7content c7logs).2 "\\textbf\x7bB\x7d".toList
     (by decide) (by decide)⟩

/-! ## Claim C8 — healer patches are purely insertions -/

/-- Inserting a string leaves the original as a sublist. -/
theorem sublist_insertAt (l ins : List Char) (i : Nat) :
    List.Sublist l (insertAt l i ins) := by
  rw [insertAt]
  conv_lhs => rw [← List.take_append_drop i l]
  exact List.Sublist.append (List.sublist_append_left (l.take i) ins)
    (List.Sublist.refl _)

theorem healFix1_sublist (r : SelfHealer.HealResult) :
    List.Sublist r.healed (SelfHealer.healFix1 r).healed := by
  rw [SelfHealer.healFix1]
  split
  · exact List.sublist_append_left _ _
  · exact List.Sublist.refl _

theorem healFix2_sublist (content logs : List Char)
    (r : SelfHealer.HealResult) :
    List.Sublist r.healed (SelfHealer.healFix2 content logs r).healed := by
  rw [SelfHealer.healFix2]
  split
  · exact List.Sublist.refl _
  · show List.Sublist r.healed
      (match findSub r.healed SelfHealer.beginDocL with
        | some pos => insertAt r.healed pos _
        | none =>
          match findSub r.healed ['\n'] with
          | some pos => insertAt r.healed pos _
          | none => _ ++ r.healed)
    split
    · exact sublist_insertAt _ _ _
    · split
      · exact sublist_insertAt _ _ _
      · exact List.sublist_append_right _ _

theorem healFix3_sublist (logs : List Char) (r : SelfHealer.HealResult) :
    List.Sublist r.healed (SelfHealer.healFix3 logs r).healed := by
  rw [SelfHealer.healFix3]
  split
  · show List.Sublist r.healed
      (match rfindSub r.healed SelfHealer.endDocL with
        | some pos => insertAt r.healed pos _
        | none => r.healed ++ _)
    split
    · exact sublist_insertAt _ _ _
    · exact List.sublist_append_left _ _
  · exact List.Sublist.refl _

/-- C8: whenever the healer returns `Some(patched)`, the original source
is a sublist of the patched text — every fix only inserts substrings,
deleting or reordering nothing. -/
theorem C8_additive (content logs patched : List Char)
    (h : SelfHealer.attemptHeal content logs = some patched) :
    List.Sublist content patched := by
  simp only [SelfHealer.attemptHeal] at h
  split at h
  · cases h
  · have hch : (SelfHealer.attemptHealCore content logs).healed = patched :=
      Option.some.inj h
    rw [← hch, SelfHealer.attemptHealCore]
    have h1 := healFix1_sublist ⟨content, []⟩
    have h2 := healFix2_sublist content logs (SelfHealer.healFix1 ⟨content, []⟩)
    have h3 := healFix3_sublist logs
      (SelfHealer.healFix2 content logs (SelfHealer.healFix1 ⟨content, []⟩))
    exact (h1.trans h2).trans h3

/-- Witness for C8 at a concrete input: the terminator fix appends, and
the original source is a sublist of the result. -/
theorem C8_witness :
    List.Sublist "\\begin\x7bdocument\x7dy".toList
      ("\\begin\x7bdocument\x7dy".toList ++ SelfHealer.endDocPatchL) :=
  C8_additive "\\begin\x7bdocument\x7dy".toList [] _ (by decide)

/-! ## Claim C9 — fallback look-ahead window -/

/-- A log whose `l.<n>` line is the 10th line after the `!` error line. -/
def c9log : List Char :=
  "! Oops\nA\nB\nC\nD\nE\nF\nG\nH\nI\nl.7 bad".toList

/-- C9 counterexample: the `l.7 bad` line sits exactly 10 lines after the
error line — inside the claimed 10-line window — yet the parser recovers
neither line number nor context, because the loop
`for j in i+1..min(i+10, len)` visits only 9 lines. -/
theorem C9_counterexample :
    LogParser.parseLogErrors c9log
        = [⟨"unknown".toList, none, "Oops".toList, none⟩]
      ∧ (rustLines c9log).get? 10 = some "l.7 bad".toList
      ∧ LogParser.lDotCapture "l.7 bad".toList = some (7, "bad".toList) :=
  ⟨by decide, by decide, by decide⟩

/-- `findSome?` skips a prefix that yields nothing. -/
theorem findSome?_append_of_none {α β : Type} (l₁ l₂ : List α)
    (f : α → Option β) (h : ∀ x ∈ l₁, f x = none) :
    (l₁ ++ l₂).findSome? f = l₂.findSome? f := by
  induction l₁ with
  | nil => rfl
  | cons a rest ih =>
    have ha : f a = none := h a (List.mem_cons_self a rest)
    simp only [List.cons_append, List.findSome?]
    rw [ha]
    exact ih (fun x hx => h x (List.mem_cons_of_mem a hx))

/-- An all-digit run followed by a non-digit boundary is what
`takeWhile is_digit` captures. -/
theorem takeWhile_digit_run (d ctx : List Char)
    (hd : ∀ c ∈ d, c.isDigit = true)
    (hctx : ∀ c ∈ ctx.head?, c.isDigit = false) :
    (d ++ ctx).takeWhile Char.isDigit = d := by
  induction d with
  | nil =>
    cases ctx with
    | nil => rfl
    | cons c rest =>
      have := hctx c rfl
      simp [List.takeWhile, this]
  | cons c rest ih =>
    have hc : c.isDigit = true := hd c (List.mem_cons_self c rest)
    simp only [List.cons_append, List.takeWhile, hc, List.append_eq]
    rw [ih (fun x hx => hd x (List.mem_cons_of_mem c hx))]

/-- `lDotCapture` on a well-formed `l.<digits><context>` line. -/
theorem lDotCapture_mk (d ctx : List Char) (hne : d ≠ [])
    (hd : ∀ c ∈ d, c.isDigit = true)
    (hctx : ∀ c ∈ ctx.head?, c.isDigit = false) :
    LogParser.lDotCapture ('l' :: '.' :: (d ++ ctx))
      = some (digitsToNat d, trimList ctx) := by
  show (let digs := (d ++ ctx).takeWhile Char.isDigit
    if digs.isEmpty then none
    else some (digitsToNat digs, trimList ((d ++ ctx).drop digs.length)))
      = some (digitsToNat d, trimList ctx)
  rw [takeWhile_digit_run d ctx hd hctx]
  have : d.isEmpty = false := by
    cases d with
    | nil => exact absurd rfl hne
    | cons a l => rfl
  simp only [this, Bool.false_eq_true, if_false, List.drop_left]

/-- C9 (amended): after a `!`/`error:` line, the parser scans only the
next up to **9** lines (`for j in i+1..min(i+10, len)`); when the first
`l.<n><context>` match lies within those 9 lines, its line number and
trimmed context are recovered. -/
theorem C9_lookahead_nine (pre post : List (List Char)) (d ctx : List Char)
    (hlen : pre.length ≤ 8)
    (hpre : ∀ l ∈ pre, LogParser.lDotCapture l = none)
    (hne : d ≠ [])
    (hd : ∀ c ∈ d, c.isDigit = true)
    (hctx : ∀ c ∈ ctx.head?, c.isDigit = false) :
    LogParser.lookAhead (pre ++ ('l' :: '.' :: (d ++ ctx)) :: post)
      = some (digitsToNat d, trimList ctx) := by
  rw [LogParser.lookAhead, List.take_append_eq_append_take,
    List.take_of_length_le (le_trans hlen (by norm_num))]
  obtain ⟨k, hk⟩ : ∃ k, 9 - pre.length = k + 1 := ⟨8 - pre.length, by omega⟩
  rw [hk, List.take_succ_cons,
    findSome?_append_of_none pre _ LogParser.lDotCapture hpre]
  simp only [List.findSome?]
  rw [lDotCapture_mk d ctx hne hd hctx]

/-- Witness for C9's amended theorem at a concrete input: an `l.42 hi`
line immediately after the error line is recovered. -/
theorem C9_lookahead_nine_witness :
    LogParser.lookAhead [['l', '.', '4', '2', ' ', 'h', 'i']]
      = some (42, ['h', 'i']) := by
  have h := C9_lookahead_nine [] [] ['4', '2'] [' ', 'h', 'i']
    (by decide) (by simp) (by decide) (by decide) (by decide)
  exact h

/-! ## Claim C10 — a result-cache HIT leaves the format cache untouched -/

/-- C10: whenever the fingerprint of the uploaded bytes hits the result
cache, the modular `compile_handler` returns before preamble handling:
the seen-preamble set comes back unchanged (so `check_and_mark` was never
performed), the response carries no `X-HMR` header, and it is a 200 with
`X-Cache: HIT`. -/
theorem C10_hit_preserves_format_cache (eng : Handlers.EngineResult)
    (now ct : Nat) (cc : CompilationCache) (seen : List Nat)
    (parts : List (String × List Nat))
    (hhit : (CompilationCache.get_pdf cc now
        (CompilationCache.hash_input
          ((parts.map (fun p => p.2)).flatten))).1.isSome = true) :
    (Handlers.compileHandler eng now ct cc seen parts).2.2 = seen
      ∧ Handlers.headerValue "X-HMR"
          (Handlers.compileHandler eng now ct cc seen parts).1.headers = none
      ∧ Handlers.headerValue "X-Cache"
          (Handlers.compileHandler eng now ct cc seen parts).1.headers
        = some "HIT"
      ∧ (Handlers.compileHandler eng now ct cc seen parts).1.status
        = 200 := by
  rcases hg : CompilationCache.get_pdf cc now
      (CompilationCache.hash_input ((parts.map (fun p => p.2)).flatten))
    with ⟨res, cc'⟩
  cases res with
  | none => rw [hg] at hhit; simp at hhit
  | some v =>
    obtain ⟨pdf, origTime⟩ := v
    simp only [Handlers.compileHandler, hg]
    refine ⟨?_, ?_, ?_, ?_⟩ <;> trivial

/-- A one-part upload. -/
def c10parts : List (String × List Nat) := [("main.tex", [1, 2, 3])]

/-- A cache already holding the fingerprint of that upload. -/
def c10cc : CompilationCache :=
  CompilationCache.put_pdf (CompilationCache.new true) 0
    (CompilationCache.hash_input [1, 2, 3]) [9, 9] 5

/-- Witness for C10 at a concrete input: the stored fingerprint hits, the
seen-preamble set `[5]` is returned unchanged, and the HIT response has
no `X-HMR` header. -/
theorem C10_witness :
    (CompilationCache.get_pdf c10cc 1
        (CompilationCache.hash_input
          ((c10parts.map (fun p => p.2)).flatten))).1.isSome = true
      ∧ (Handlers.compileHandler ⟨none⟩ 1 0 c10cc [5] c10parts).2.2 = [5]
      ∧ Handlers.headerValue "X-HMR"
          (Handlers.compileHandler ⟨none⟩ 1 0 c10cc [5] c10parts).1.headers
        = none
      ∧ Handlers.headerValue "X-Cache"
          (Handlers.compileHandler ⟨none⟩ 1 0 c10cc [5] c10parts).1.headers
        = some "HIT" := by
  have hhit : (CompilationCache.get_pdf c10cc 1
      (CompilationCache.hash_input
        ((c10parts.map (fun p => p.2)).flatten))).1.isSome = true := by
    decide
  have h := C10_hit_preserves_format_cache ⟨none⟩ 1 0 c10cc [5] c10parts hhit
  exact ⟨hhit, h.1, h.2.1, h.2.2.1⟩

/-! ## Claim C6 — empty upload on the routed `/compile` -/

/-- C6: a multipart upload with no file parts is rejected with status
400 by the routed `main.rs` `compile_handler`, before any cache lookup or
engine invocation (the engine-invoked flag is `false`), for every engine
outcome and cache state. -/
theorem C6_empty_upload_400 (engineOk : Bool)
    (cacheLookup : Nat → Option (List Nat × Nat)) :
    (MainBin.compileHandler engineOk cacheLookup []).1.status = 400
      ∧ (MainBin.compileHandler engineOk cacheLookup []).2 = false := by
  exact ⟨rfl, rfl⟩

end TachyonTex
